import Mathlib

/-!
Verification development for the logistic-regression tutorial notebook.

The notebook's own code consists of: a one-hot encoding of the `famhist`
column via boolean column comparisons, a `split` helper that reseeds the
global PRNG with the constant 42 and calls `train_test_split`, an `evaluate`
helper built on `accuracy_score`, and a `GridSearchCV` invocation (whose
recorded defaults include `error_score='raise'` and `refit=True`).

Dataframes are embedded as a list of column names plus rows of cells;
pandas name-based column operations become zip/filter/find? operations.
Library internals that are not part of the repository (the pseudorandom
permutation, the accuracy metric, the cross-validated grid-search
controller) are modelled from the specification, as noted on each
definition.
-/

namespace LRT

/-- A dataframe cell: the notebook's frames hold numbers, the categorical
`famhist` strings, and the boolean columns produced by `== 'Present'` /
`== 'Absent'` comparisons. -/
inductive Val where
  | num (q : ℚ)
  | str (s : String)
  | bool (b : Bool)
deriving DecidableEq

/-- Numeric reading of a cell, as NumPy/sklearn consume it downstream:
booleans coerce to 1.0 / 0.0; strings have no numeric value. -/
def Val.asRat : Val → Option ℚ
  | .num q => some q
  | .str _ => none
  | .bool b => some (if b then 1 else 0)

/-- A pandas DataFrame: named columns and positional rows of cells. -/
structure Frame where
  cols : List String
  rows : List (List Val)
deriving DecidableEq

/-- Name-based cell lookup in one row (`row['name']`): the value paired
with the first matching column name. -/
def colVal (cols : List String) (name : String) (r : List Val) : Option Val :=
  ((cols.zip r).find? (fun p => p.1 == name)).map (fun p => p.2)

/-- Select the cells of one row whose column name differs from `name`,
preserving order — the row-level action of `df.loc[:, df.columns != name]`
and of `df.drop([name], axis=1)`. -/
def selectNe (cols : List String) (name : String) (r : List Val) : List Val :=
  ((cols.zip r).filter (fun p => p.1 != name)).map (fun p => p.2)

/-- `df.drop([name], axis=1)`: remove the named column from the header and
from every row. -/
def dropColumn (df : Frame) (name : String) : Frame :=
  ⟨df.cols.filter (fun c => c != name), df.rows.map (selectNe df.cols name)⟩

/-- The notebook's famhist encoding:
`data['famhist_true'] = data['famhist'] == 'Present'`,
`data['famhist_false'] = data['famhist'] == 'Absent'`,
`data = data.drop(['famhist'], axis=1)`.
Each assignment appends a boolean column computed by comparing the
`famhist` cell of each row with the given string. -/
def encodeFamhist (df : Frame) : Frame :=
  let df1 : Frame := ⟨df.cols ++ ["famhist_true"],
    df.rows.map (fun r =>
      r ++ [Val.bool (colVal df.cols "famhist" r == some (Val.str "Present"))])⟩
  let df2 : Frame := ⟨df1.cols ++ ["famhist_false"],
    df1.rows.map (fun r =>
      r ++ [Val.bool (colVal df1.cols "famhist" r == some (Val.str "Absent"))])⟩
  dropColumn df2 "famhist"

/-- Modelled from the spec: a deterministic pseudorandom step (the
notebook's randomness lives inside NumPy, which is not part of the
repository); a linear congruential update. -/
def nextRand (s : ℕ) : ℕ :=
  (1103515245 * s + 12345) % 4294967296

/-- Modelled from the spec: a seeded pseudorandom permutation of a list
(`np.random.permutation` inside `train_test_split` is not part of the
repository). At each step the PRNG state selects the next element; the
fuel argument equals the number of remaining elements. -/
def shuffleGo {α : Type} : ℕ → ℕ → List α → List α
  | 0, _, l => l
  | _ + 1, _, [] => []
  | fuel + 1, s, x :: xs =>
    let i := s % (xs.length + 1)
    (x :: xs).get ⟨i, by simpa using Nat.mod_lt s (Nat.succ_pos xs.length)⟩ ::
      shuffleGo fuel (nextRand s) ((x :: xs).eraseIdx i)

/-- Modelled from the spec: the seeded shuffle of a whole list. -/
def shuffle {α : Type} (s : ℕ) (l : List α) : List α :=
  shuffleGo l.length s l

/-- Modelled from the spec (the splitter core delegated to
`model_selection.train_test_split`): shuffle the rows with the given PRNG
state, take `⌈n · testSize⌉` rows as the test set and the rest as the
train set; returns `(train, test)`. -/
def train_test_split {α : Type} (state : ℕ) (testSize : ℚ) (rows : List α) :
    List α × List α :=
  let shuffled := shuffle state rows
  let nTest := (((rows.length : ℚ) * testSize).ceil).toNat
  (shuffled.drop nTest, shuffled.take nTest)

/-- The four structures returned by the notebook's `split`. -/
structure SplitResult where
  x_train : Frame
  y_train : List (Option Val)
  x_test : Frame
  y_test : List (Option Val)
deriving DecidableEq

/-- The notebook's `split(data)` generalized over the seed constant it
hardcodes: `np.random.seed(seed)` discards the ambient global PRNG state
and replaces it by the seed, `train_test_split` partitions the rows, and
the feature frames keep the columns whose name differs from `'chd'`
(`train.loc[:, train.columns != 'chd']`) while the label vectors are the
`'chd'` column of each part. -/
def splitSeeded (seed : ℕ) (df : Frame) (_ambient : ℕ) : SplitResult :=
  let state := seed
  let tt := train_test_split state (1 / 4) df.rows
  { x_train := ⟨df.cols.filter (fun c => c != "chd"), tt.1.map (selectNe df.cols "chd")⟩
  , y_train := tt.1.map (colVal df.cols "chd")
  , x_test := ⟨df.cols.filter (fun c => c != "chd"), tt.2.map (selectNe df.cols "chd")⟩
  , y_test := tt.2.map (colVal df.cols "chd") }

/-- The notebook's `split(data)`: it seeds the global PRNG with the fixed
constant 42 (`np.random.seed(42); random.seed(42)`) before splitting. -/
def split (df : Frame) (ambient : ℕ) : SplitResult :=
  splitSeeded 42 df ambient

/-- Modelled from the spec: the evaluator's failure mode for
mismatched-length label vectors (LengthMismatchError naming both
lengths). -/
inductive EvalError where
  | lengthMismatch (nActual nPredicted : ℕ)
deriving DecidableEq

/-- Number of positions at which the two label vectors agree. -/
def countMatches : List ℕ → List ℕ → ℕ
  | a :: as, b :: bs => (if a = b then 1 else 0) + countMatches as bs
  | _, _ => 0

/-- The accuracy value: fraction of matching positions. -/
def accuracyVal (yTrue yPred : List ℕ) : ℚ :=
  (countMatches yTrue yPred : ℚ) / (yTrue.length : ℚ)

/-- Modelled from the spec (the notebook's `evaluate` delegates the metric
to `metrics.accuracy_score`, which is not part of the repository): check
the two label vectors have equal length, then return the fraction of
matching entries; otherwise fail with the length-mismatch error. -/
def accuracy_score (yTrue yPred : List ℕ) : Except EvalError ℚ :=
  if yTrue.length = yPred.length then
    Except.ok (accuracyVal yTrue yPred)
  else
    Except.error (EvalError.lengthMismatch yTrue.length yPred.length)

/-- Grid-search failure values: a per-combination numeric-instability
failure during fit, and the empty-space failure of the controller. -/
inductive GSError where
  | numericInstability (msg : String)
  | emptySpace
deriving DecidableEq

/-- Sequence a fallible function over a list, stopping at the first
failure (the propagation behaviour of exceptions in the sequential
loop). -/
def mapExcept {α β ε : Type} (f : α → Except ε β) : List α → Except ε (List β)
  | [] => Except.ok []
  | a :: l =>
    match f a with
    | Except.error e => Except.error e
    | Except.ok b => (mapExcept f l).map (fun bs => b :: bs)

/-- Modelled from the spec: boundary of the i-th of k contiguous
(near-)equal cross-validation folds of n rows — the first `n % k` folds
get `n / k + 1` rows, the rest `n / k`. -/
def foldBound (n k i : ℕ) : ℕ :=
  i * (n / k) + min i (n % k)

/-- The held-out block of the i-th fold. -/
def kfoldTest {α : Type} (k i : ℕ) (l : List α) : List α :=
  (l.drop (foldBound l.length k i)).take
    (foldBound l.length k (i + 1) - foldBound l.length k i)

/-- The training block of the i-th fold (everything outside the held-out
block). -/
def kfoldTrain {α : Type} (k i : ℕ) (l : List α) : List α :=
  l.take (foldBound l.length k i) ++ l.drop (foldBound l.length k (i + 1))

/-- Modelled from the spec: mean held-out score of one hyperparameter
combination over k folds; a fold whose fit fails propagates its error. -/
def cvMean {D M : Type} (k : ℕ) (fit : ℚ × ℕ → List D → Except GSError M)
    (score : M → List D → ℚ) (train : List D) (c : ℚ × ℕ) : Except GSError ℚ :=
  (mapExcept (fun i =>
      (fit c (kfoldTrain k i train)).map (fun m => score m (kfoldTest k i train)))
    (List.range k)).map (fun ss => ss.sum / (k : ℚ))

/-- The mean held-out score when every fit succeeds, written directly. -/
def pureCvMean {D M : Type} (k : ℕ) (f : ℚ × ℕ → List D → M)
    (score : M → List D → ℚ) (train : List D) (c : ℚ × ℕ) : ℚ :=
  (((List.range k).map (fun i =>
      score (f c (kfoldTrain k i train)) (kfoldTest k i train))).sum) / (k : ℚ)

/-- The notebook's hyperparameter grid
`{'alpha': [...], 'max_iter': [...]}` enumerated as its Cartesian product
in the controller's deterministic order: `alpha` outermost, `max_iter`
innermost (the order of the recorded `cv_results_`). -/
def paramCombos (alphas : List ℚ) (iters : List ℕ) : List (ℚ × ℕ) :=
  alphas.flatMap (fun a => iters.map (fun t => (a, t)))

/-- One left-to-right pass selecting the best score: a later candidate
replaces the incumbent only when strictly greater, so the first of any
tied maxima wins. Returns the index and the score. -/
def bestIdxScore : List ℚ → Option (ℕ × ℚ)
  | [] => none
  | s :: rest =>
    match bestIdxScore rest with
    | none => some (0, s)
    | some (j, m) => if s < m then some (j + 1, m) else some (0, s)

/-- The outcome of a grid search: the per-combination results in
enumeration order, the winning combination with its mean held-out score,
and the model refit on the whole training set. -/
structure GSOut (M : Type) where
  results : List ((ℚ × ℕ) × ℚ)
  best_params : ℚ × ℕ
  best_score : ℚ
  best_estimator : M
deriving DecidableEq

/-- Modelled from the spec and the notebook's `GridSearchCV` call (with
its recorded defaults `error_score='raise'` and `refit=True`): evaluate
every combination of the grid by k-fold cross-validation in enumeration
order — a combination's failure propagates and aborts the search —, pick
the combination with the highest mean held-out score (first wins on
ties), and refit a final model on the entire training set with it. -/
def gridSearchCV {D M : Type} (k : ℕ) (fit : ℚ × ℕ → List D → Except GSError M)
    (score : M → List D → ℚ) (alphas : List ℚ) (iters : List ℕ)
    (train : List D) : Except GSError (GSOut M) :=
  match mapExcept (fun c => (cvMean k fit score train c).map (fun s => (c, s)))
      (paramCombos alphas iters) with
  | Except.error e => Except.error e
  | Except.ok results =>
    match bestIdxScore (results.map (fun p => p.2)) with
    | none => Except.error GSError.emptySpace
    | some (j, m) =>
      match (paramCombos alphas iters)[j]? with
      | none => Except.error GSError.emptySpace
      | some c => (fit c train).map (fun mdl => ⟨results, c, m, mdl⟩)

/-- The sigmoid function of the notebook's hypothesis section:
σ(z) = 1 / (1 + e^(−z)). -/
noncomputable def sigmoid (z : ℝ) : ℝ :=
  1 / (1 + Real.exp (-z))

/-- The shape of one encoded row: the original cells minus the `famhist`
cell, followed by the two appended indicator cells. -/
def encRow (cols : List String) (r : List Val) : List Val :=
  selectNe cols "famhist" r ++
    [Val.bool (colVal cols "famhist" r == some (Val.str "Present")),
     Val.bool (colVal cols "famhist" r == some (Val.str "Absent"))]

/-- A concrete learner for evaluating the grid search at an input: the
fitted model is the combination's `max_iter` value. -/
def egF : ℚ × ℕ → List ℕ → ℚ := fun c _ => (c.2 : ℚ)

/-- The fallible wrapper of `egF`; it never fails. -/
def egFit : ℚ × ℕ → List ℕ → Except GSError ℚ := fun c tr => Except.ok (egF c tr)

/-- A concrete scoring function: the model value itself. -/
def egScore : ℚ → List ℕ → ℚ := fun m _ => m

/-- A learner that fails with a numeric-instability error on any
combination whose `max_iter` is 0 and succeeds otherwise. -/
def badFit : ℚ × ℕ → List ℕ → Except GSError ℚ := fun c _ =>
  if c.2 = 0 then Except.error (GSError.numericInstability "diverged")
  else Except.ok c.1

/-- A one-row frame in the dataset's shape, used to evaluate the encoding
at a concrete input. -/
def egFrame : Frame :=
  ⟨["famhist", "chd"], [[Val.str "Present", Val.num 1]]⟩

/-- A one-row frame whose `famhist` value is outside the dataset's
distinct-value set {Present, Absent}. -/
def unseenFrame : Frame :=
  ⟨["famhist"], [[Val.str "Unknown"]]⟩

theorem getElem_cons_eraseIdx_perm {α : Type} :
    ∀ (l : List α) (i : ℕ) (h : i < l.length), (l[i] :: l.eraseIdx i).Perm l
  | [], i, h => absurd h (by simp)
  | x :: xs, 0, _ => by simp
  | x :: xs, i + 1, h => by
    have hi : i < xs.length := by simpa using h
    have ih := getElem_cons_eraseIdx_perm xs i hi
    have h1 : (x :: xs)[i + 1] = xs[i] := by simp
    rw [h1, List.eraseIdx_cons_succ]
    exact (List.Perm.swap x (xs[i]) (xs.eraseIdx i)).trans (ih.cons x)

theorem shuffleGo_perm {α : Type} :
    ∀ (fuel s : ℕ) (l : List α), (shuffleGo fuel s l).Perm l
  | 0, _, l => List.Perm.refl l
  | _ + 1, _, [] => List.Perm.refl []
  | fuel + 1, s, x :: xs => by
    show ((x :: xs).get _ :: shuffleGo fuel (nextRand s) ((x :: xs).eraseIdx _)).Perm (x :: xs)
    exact ((shuffleGo_perm fuel (nextRand s) _).cons _).trans
      (getElem_cons_eraseIdx_perm (x :: xs) (s % (xs.length + 1))
        (by simpa using Nat.mod_lt s (Nat.succ_pos xs.length)))

theorem shuffle_perm {α : Type} (s : ℕ) (l : List α) : (shuffle s l).Perm l :=
  shuffleGo_perm l.length s l

theorem train_test_split_perm {α : Type} (state : ℕ) (testSize : ℚ) (rows : List α) :
    ((train_test_split state testSize rows).1 ++
      (train_test_split state testSize rows).2).Perm rows := by
  unfold train_test_split
  refine List.Perm.trans ?_ (shuffle_perm state rows)
  exact List.Perm.trans (List.perm_append_comm)
    (by rw [List.take_append_drop])

/-- C2: for every dataset and every seed, two invocations of the splitter
with the same seed and the same data return identical partitions,
whatever the ambient global PRNG state of either run is: the splitter
reseeds the PRNG itself, so its output is a pure function of the data and
the seed. -/
theorem split_two_run_determinism (df : Frame) (seed a1 a2 : ℕ) :
    splitSeeded seed df a1 = splitSeeded seed df a2 ∧ split df a1 = split df a2 :=
  ⟨rfl, rfl⟩

/-- C3: for any split fraction strictly between 0 and 1, the splitter
partitions the rows: the concatenation of the train part and the test
part is a permutation of the original rows (every row appears exactly
once across the two parts), and for duplicate-free rows the two parts are
disjoint. -/
theorem split_partitions_rows {α : Type} [DecidableEq α] (rows : List α)
    (state : ℕ) (frac : ℚ) (h0 : 0 < frac) (h1 : frac < 1) :
    ((train_test_split state frac rows).1 ++
        (train_test_split state frac rows).2).Perm rows ∧
      (rows.Nodup →
        (train_test_split state frac rows).1.Disjoint
          (train_test_split state frac rows).2) := by
  refine ⟨train_test_split_perm state frac rows, fun hnd => ?_⟩
  have hperm := train_test_split_perm state frac rows
  have hnodup := hperm.symm.nodup hnd
  exact (List.nodup_append.mp hnodup).2.2

theorem split_partitions_rows_witness :
    ((0 : ℚ) < 1 / 4 ∧ (1 / 4 : ℚ) < 1) ∧
      (((train_test_split 7 (1 / 4) [0, 1, 2, 3, 4]).1 ++
          (train_test_split 7 (1 / 4) [0, 1, 2, 3, 4]).2).Perm [0, 1, 2, 3, 4] ∧
        (([0, 1, 2, 3, 4] : List ℕ).Nodup →
          (train_test_split 7 (1 / 4) [0, 1, 2, 3, 4]).1.Disjoint
            (train_test_split 7 (1 / 4) [0, 1, 2, 3, 4]).2)) :=
  ⟨⟨by norm_num, by norm_num⟩,
    split_partitions_rows [0, 1, 2, 3, 4] 7 (1 / 4) (by norm_num) (by norm_num)⟩

/-- C8: the splitter returns four structures — train features, train
labels, test features, test labels — whose feature frames carry exactly
the input columns other than the label column `'chd'`, in the input's
order (a sublist of the original header), identically between train and
test. -/
theorem split_feature_columns (df : Frame) (a : ℕ) :
    (split df a).x_train.cols = df.cols.filter (fun c => c != "chd") ∧
      (split df a).x_test.cols = df.cols.filter (fun c => c != "chd") ∧
      "chd" ∉ (split df a).x_train.cols ∧
      (split df a).x_train.cols.Sublist df.cols ∧
      (split df a).x_train.cols = (split df a).x_test.cols := by
  refine ⟨rfl, rfl, ?_, ?_, rfl⟩
  · intro hmem
    have := (List.mem_filter.mp hmem).2
    simp at this
  · exact List.filter_sublist df.cols

theorem colVal_append_singleton (cols : List String) (name n : String)
    (r : List Val) (v : Val) (hlen : cols.length = r.length)
    (hne : (n == name) = false) :
    colVal (cols ++ [n]) name (r ++ [v]) = colVal cols name r := by
  unfold colVal
  rw [List.zip_append hlen, List.find?_append]
  simp [List.find?, hne]

theorem selectNe_append_pair (cols : List String) (name a b : String)
    (r : List Val) (x y : Val) (hlen : cols.length = r.length)
    (ha : (a != name) = true) (hb : (b != name) = true) :
    selectNe (cols ++ [a, b]) name (r ++ [x, y]) = selectNe cols name r ++ [x, y] := by
  unfold selectNe
  have : ([a, b] : List String).zip ([x, y] : List Val) = [(a, x), (b, y)] := rfl
  rw [List.zip_append hlen, this, List.filter_append, List.map_append]
  simp [List.filter, ha, hb]

theorem encodeFamhist_cols (df : Frame) :
    (encodeFamhist df).cols =
      df.cols.filter (fun c => c != "famhist") ++ ["famhist_true", "famhist_false"] := by
  have h1 : (("famhist_true" : String) != "famhist") = true := by decide
  have h2 : (("famhist_false" : String) != "famhist") = true := by decide
  simp [encodeFamhist, dropColumn, List.filter_append, List.filter, h1, h2]

theorem encodeFamhist_rows (df : Frame)
    (hrect : ∀ r ∈ df.rows, r.length = df.cols.length)
    (i : ℕ) (r : List Val) (h : df.rows[i]? = some r) :
    (encodeFamhist df).rows[i]? = some (encRow df.cols r) := by
  have hmem : r ∈ df.rows := by
    have hi : i < df.rows.length := by
      by_contra hn
      rw [List.getElem?_eq_none (by omega)] at h
      exact Option.noConfusion h
    rw [List.getElem?_eq_getElem hi] at h
    cases h
    exact List.getElem_mem hi
  have hr : df.cols.length = r.length := (hrect r hmem).symm
  have hfneq : (("famhist_true" : String) == "famhist") = false := by decide
  simp only [encodeFamhist, dropColumn, List.getElem?_map, h, Option.map_some']
  congr 1
  rw [colVal_append_singleton df.cols "famhist" "famhist_true" r _ hr hfneq]
  rw [List.append_assoc, List.append_assoc]
  have hassoc : ([Val.bool (colVal df.cols "famhist" r == some (Val.str "Present"))] ++
      [Val.bool (colVal df.cols "famhist" r == some (Val.str "Absent"))]) =
      ([Val.bool (colVal df.cols "famhist" r == some (Val.str "Present")),
        Val.bool (colVal df.cols "famhist" r == some (Val.str "Absent"))]) := rfl
  rw [hassoc]
  exact selectNe_append_pair df.cols "famhist" "famhist_true" "famhist_false" r _ _
    hr (by decide) (by decide)

theorem bool_indicator_asRat (s t : String) :
    (Val.bool (s == t)).asRat = some (if s = t then 1 else 0) := by
  by_cases h : s = t <;> simp [Val.asRat, h]

/-- C4: the famhist encoding produces one column per distinct value of the
categorical column ({Present, Absent}), drops the original `famhist`
column, and fills each generated cell with a value whose numeric reading
is 1.0 in the rows where the original value matches and 0.0 otherwise. -/
theorem famhist_onehot (df : Frame)
    (hrect : ∀ r ∈ df.rows, r.length = df.cols.length) :
    (encodeFamhist df).cols =
        df.cols.filter (fun c => c != "famhist") ++ ["famhist_true", "famhist_false"] ∧
      "famhist" ∉ (encodeFamhist df).cols ∧
      (∀ (i : ℕ) (r : List Val), df.rows[i]? = some r →
        (encodeFamhist df).rows[i]? = some (encRow df.cols r)) ∧
      (∀ r s, colVal df.cols "famhist" r = some (Val.str s) →
        encRow df.cols r = selectNe df.cols "famhist" r ++
            [Val.bool (s == "Present"), Val.bool (s == "Absent")] ∧
          (Val.bool (s == "Present")).asRat = some (if s = "Present" then 1 else 0) ∧
          (Val.bool (s == "Absent")).asRat = some (if s = "Absent" then 1 else 0)) := by
  refine ⟨encodeFamhist_cols df, ?_, fun i r h => encodeFamhist_rows df hrect i r h,
    fun r s hcv => ⟨?_, bool_indicator_asRat s "Present", bool_indicator_asRat s "Absent"⟩⟩
  · rw [encodeFamhist_cols df]
    intro hmem
    rcases List.mem_append.mp hmem with hmem | hmem
    · have := (List.mem_filter.mp hmem).2
      simp at this
    · simp at hmem
  · unfold encRow
    rw [hcv]
    congr 2
    · by_cases h : s = "Present" <;> simp [h]
    · by_cases h : s = "Absent" <;> simp [h]

theorem famhist_onehot_witness :
    (encodeFamhist egFrame).cols =
        egFrame.cols.filter (fun c => c != "famhist") ++ ["famhist_true", "famhist_false"] ∧
      "famhist" ∉ (encodeFamhist egFrame).cols ∧
      (∀ (i : ℕ) (r : List Val), egFrame.rows[i]? = some r →
        (encodeFamhist egFrame).rows[i]? = some (encRow egFrame.cols r)) ∧
      (∀ r s, colVal egFrame.cols "famhist" r = some (Val.str s) →
        encRow egFrame.cols r = selectNe egFrame.cols "famhist" r ++
            [Val.bool (s == "Present"), Val.bool (s == "Absent")] ∧
          (Val.bool (s == "Present")).asRat = some (if s = "Present" then 1 else 0) ∧
          (Val.bool (s == "Absent")).asRat = some (if s = "Absent" then 1 else 0)) :=
  famhist_onehot egFrame (by decide)

/-- C10: in every encoded row whose original famhist value is `Present`
or `Absent`, exactly one of the two generated indicator cells is true
(the pair is `(true, false)` for `Present` and `(false, true)` for
`Absent`); for any other famhist value both cells are false. -/
theorem famhist_indicators_complementary (df : Frame)
    (hrect : ∀ r ∈ df.rows, r.length = df.cols.length) :
    ∀ (i : ℕ) (r : List Val) (s : String), df.rows[i]? = some r →
      colVal df.cols "famhist" r = some (Val.str s) →
      ∃ rest a b, (encodeFamhist df).rows[i]? = some (rest ++ [Val.bool a, Val.bool b]) ∧
        (s = "Present" → a = true ∧ b = false) ∧
        (s = "Absent" → a = false ∧ b = true) ∧
        (s ≠ "Present" → s ≠ "Absent" → a = false ∧ b = false) := by
  intro i r s h hcv
  refine ⟨selectNe df.cols "famhist" r,
    (colVal df.cols "famhist" r == some (Val.str "Present")),
    (colVal df.cols "famhist" r == some (Val.str "Absent")),
    encodeFamhist_rows df hrect i r h, ?_, ?_, ?_⟩
  · intro hs
    rw [hcv, hs]
    exact ⟨by simp, by simp⟩
  · intro hs
    rw [hcv, hs]
    exact ⟨by simp, by simp⟩
  · intro hp ha
    rw [hcv]
    exact ⟨by simp [hp], by simp [ha]⟩

theorem famhist_indicators_complementary_witness :
    ∃ rest a b,
      (encodeFamhist egFrame).rows[0]? = some (rest ++ [Val.bool a, Val.bool b]) ∧
        ("Present" = "Present" → a = true ∧ b = false) ∧
        ("Present" = "Absent" → a = false ∧ b = true) ∧
        ("Present" ≠ "Present" → "Present" ≠ "Absent" → a = false ∧ b = false) :=
  famhist_indicators_complementary egFrame (by decide) 0
    [Val.str "Present", Val.num 1] "Present" (by decide) (by decide)

/-- C5 counterexample: encoding a famhist value outside the
distinct-value set {Present, Absent} does not fail — there is no
EncodingError or any other error path in the encoding — it silently
produces an encoded row whose two indicator cells are both false. -/
theorem famhist_unseen_counterexample :
    encodeFamhist unseenFrame =
      ⟨["famhist_true", "famhist_false"], [[Val.bool false, Val.bool false]]⟩ := by
  decide

/-- C5 amended: encoding a famhist value that is not in the fixed
distinct-value set produces an encoded row silently, with both generated
indicator cells false (numerically 0.0); no error is raised. -/
theorem famhist_unseen_silent (df : Frame)
    (hrect : ∀ r ∈ df.rows, r.length = df.cols.length) :
    ∀ (i : ℕ) (r : List Val) (s : String), df.rows[i]? = some r →
      colVal df.cols "famhist" r = some (Val.str s) →
      s ≠ "Present" → s ≠ "Absent" →
      (encodeFamhist df).rows[i]? =
        some (selectNe df.cols "famhist" r ++ [Val.bool false, Val.bool false]) := by
  intro i r s h hcv hp ha
  rw [encodeFamhist_rows df hrect i r h]
  unfold encRow
  rw [hcv]
  congr 3
  · simp [hp]
  · simp [ha]

theorem famhist_unseen_silent_witness :
    (encodeFamhist unseenFrame).rows[0]? =
      some (selectNe unseenFrame.cols "famhist" [Val.str "Unknown"] ++
        [Val.bool false, Val.bool false]) :=
  famhist_unseen_silent unseenFrame (by decide) 0 [Val.str "Unknown"] "Unknown"
    (by decide) (by decide) (by decide) (by decide)

theorem countMatches_le : ∀ (a p : List ℕ), countMatches a p ≤ a.length
  | [], _ => by simp [countMatches]
  | _ :: _, [] => by simp [countMatches]
  | x :: as, y :: bs => by
    have ih := countMatches_le as bs
    simp only [countMatches, List.length_cons]
    split <;> omega

theorem countMatches_self : ∀ (a : List ℕ), countMatches a a = a.length
  | [] => rfl
  | x :: as => by simp [countMatches, countMatches_self as, Nat.add_comm]

theorem countMatches_eq_zero : ∀ (a p : List ℕ),
    (∀ (i : ℕ) (x y : ℕ), a[i]? = some x → p[i]? = some y → x ≠ y) →
    countMatches a p = 0
  | [], _, _ => by simp [countMatches]
  | _ :: _, [], _ => by simp [countMatches]
  | x :: as, y :: bs, h => by
    have hxy : x ≠ y := h 0 x y (by simp) (by simp)
    have ih := countMatches_eq_zero as bs
      (fun i a b ha hb => h (i + 1) a b (by simpa using ha) (by simpa using hb))
    simp [countMatches, if_neg hxy, ih]

/-- C6: on equal-length label vectors the evaluator returns the fraction
of matching positions — a value in [0, 1], equal to 1 when the vectors
agree elementwise (and are nonempty) and to 0 when they disagree at every
position; on different-length vectors it fails with the length-mismatch
error. -/
theorem accuracy_score_spec (yTrue yPred : List ℕ) :
    (yTrue.length = yPred.length →
      accuracy_score yTrue yPred = Except.ok (accuracyVal yTrue yPred) ∧
        0 ≤ accuracyVal yTrue yPred ∧ accuracyVal yTrue yPred ≤ 1 ∧
        (yTrue = yPred → yTrue ≠ [] → accuracyVal yTrue yPred = 1) ∧
        ((∀ (i : ℕ) (x y : ℕ), yTrue[i]? = some x → yPred[i]? = some y → x ≠ y) →
          accuracyVal yTrue yPred = 0)) ∧
      (yTrue.length ≠ yPred.length →
        accuracy_score yTrue yPred =
          Except.error (EvalError.lengthMismatch yTrue.length yPred.length)) := by
  constructor
  · intro hlen
    refine ⟨by simp [accuracy_score, hlen], ?_, ?_, ?_, ?_⟩
    · exact div_nonneg (by positivity) (by positivity)
    · unfold accuracyVal
      rcases Nat.eq_zero_or_pos yTrue.length with h0 | h0
      · simp [h0]
      · rw [div_le_one (by exact_mod_cast h0)]
        exact_mod_cast countMatches_le yTrue yPred
    · intro heq hne
      subst heq
      unfold accuracyVal
      rw [countMatches_self]
      have : yTrue.length ≠ 0 := by
        intro hc
        exact hne (List.length_eq_zero.mp hc)
      rw [div_self (by exact_mod_cast this)]
    · intro hdis
      unfold accuracyVal
      rw [countMatches_eq_zero yTrue yPred hdis]
      simp
  · intro hlen
    simp [accuracy_score, hlen]

theorem accuracy_score_spec_witness :
    (([1, 0, 1] : List ℕ).length = ([1, 0, 1] : List ℕ).length ∧
      (accuracy_score [1, 0, 1] [1, 0, 1] = Except.ok (accuracyVal [1, 0, 1] [1, 0, 1]) ∧
        0 ≤ accuracyVal [1, 0, 1] [1, 0, 1] ∧ accuracyVal [1, 0, 1] [1, 0, 1] ≤ 1 ∧
        (([1, 0, 1] : List ℕ) = [1, 0, 1] → ([1, 0, 1] : List ℕ) ≠ [] →
          accuracyVal [1, 0, 1] [1, 0, 1] = 1) ∧
        ((∀ (i : ℕ) (x y : ℕ), ([1, 0, 1] : List ℕ)[i]? = some x →
            ([1, 0, 1] : List ℕ)[i]? = some y → x ≠ y) →
          accuracyVal [1, 0, 1] [1, 0, 1] = 0))) ∧
      (([1, 0] : List ℕ).length ≠ ([1] : List ℕ).length ∧
        accuracy_score [1, 0] [1] =
          Except.error (EvalError.lengthMismatch ([1, 0] : List ℕ).length
            ([1] : List ℕ).length)) :=
  ⟨⟨rfl, (accuracy_score_spec [1, 0, 1] [1, 0, 1]).1 rfl⟩,
    ⟨by decide, (accuracy_score_spec [1, 0] [1]).2 (by decide)⟩⟩

theorem mapExcept_ok_of_forall {α β ε : Type} (g : α → Except ε β) (h : α → β) :
    ∀ (l : List α), (∀ a ∈ l, g a = Except.ok (h a)) →
      mapExcept g l = Except.ok (l.map h)
  | [], _ => rfl
  | a :: l, H => by
    have h1 := H a (List.mem_cons_self a l)
    have h2 := mapExcept_ok_of_forall g h l (fun b hb => H b (List.mem_cons_of_mem a hb))
    simp [mapExcept, h1, h2, Except.map]

theorem mapExcept_error_at {α β ε : Type} (g : α → Except ε β) :
    ∀ (l : List α) (j : ℕ) (a : α) (e : ε), l[j]? = some a → g a = Except.error e →
      (∀ (i : ℕ) (b : α), i < j → l[i]? = some b → ∃ y, g b = Except.ok y) →
      mapExcept g l = Except.error e
  | [], j, _, _, h, _, _ => by simp at h
  | x :: l, 0, a, e, h, he, _ => by
    have hx : x = a := by simpa using h
    subst hx
    simp [mapExcept, he]
  | x :: l, j + 1, a, e, h, he, hearl => by
    obtain ⟨y, hy⟩ := hearl 0 x (Nat.succ_pos j) (by simp)
    have ih := mapExcept_error_at g l j a e (by simpa using h) he
      (fun i b hi hb => hearl (i + 1) b (by omega) (by simpa using hb))
    simp [mapExcept, hy, ih, Except.map]

theorem cvMean_ok {D M : Type} (k : ℕ) (f : ℚ × ℕ → List D → M)
    (fit : ℚ × ℕ → List D → Except GSError M) (score : M → List D → ℚ)
    (train : List D) (c : ℚ × ℕ)
    (hfit : ∀ c' tr, fit c' tr = Except.ok (f c' tr)) :
    cvMean k fit score train c = Except.ok (pureCvMean k f score train c) := by
  unfold cvMean pureCvMean
  rw [mapExcept_ok_of_forall _
    (fun i => score (f c (kfoldTrain k i train)) (kfoldTest k i train)) _
    (fun i _ => by rw [hfit]; rfl)]
  rfl

theorem bestIdxScore_cons_isSome (a : ℚ) (t : List ℚ) :
    (bestIdxScore (a :: t)).isSome := by
  rcases h : bestIdxScore t with _ | ⟨j, m⟩ <;> simp [bestIdxScore, h]
  split <;> simp

theorem bestIdxScore_spec : ∀ (l : List ℚ), l ≠ [] →
    ∃ j m, bestIdxScore l = some (j, m) ∧ l[j]? = some m ∧
      (∀ x ∈ l, x ≤ m) ∧ (∀ (i : ℕ) (x : ℚ), i < j → l[i]? = some x → x < m)
  | [], h => absurd rfl h
  | s :: rest, _ => by
    by_cases hrest : rest = []
    · subst hrest
      refine ⟨0, s, by simp [bestIdxScore], by simp, ?_,
        fun i x hi _ => absurd hi (Nat.not_lt_zero i)⟩
      intro x hx
      have : x = s := by simpa using hx
      exact le_of_eq this
    · obtain ⟨j, m, hb, hg, hmax, hfirst⟩ := bestIdxScore_spec rest hrest
      by_cases hsm : s < m
      · refine ⟨j + 1, m, by simp [bestIdxScore, hb, hsm], by simpa using hg, ?_, ?_⟩
        · intro x hx
          rcases List.mem_cons.mp hx with hx | hx
          · exact hx ▸ le_of_lt hsm
          · exact hmax x hx
        · intro i x hi hgx
          cases i with
          | zero =>
            have hxs : s = x := by simpa using hgx
            exact hxs ▸ hsm
          | succ i' => exact hfirst i' x (by omega) (by simpa using hgx)
      · refine ⟨0, s, by simp [bestIdxScore, hb, hsm], by simp, ?_,
          fun i x hi _ => absurd hi (Nat.not_lt_zero i)⟩
        intro x hx
        rcases List.mem_cons.mp hx with hx | hx
        · exact le_of_eq hx
        · exact le_trans (hmax x hx) (not_lt.mp hsm)

/-- C1: when every fit succeeds the grid search evaluates all
hyperparameter combinations in the deterministic enumeration order of the
grid's Cartesian product (the recorded results list them in that order),
selects a combination whose mean held-out score is maximal — and every
combination enumerated before the selected one scores strictly lower, so
ties go to the first enumerated —, and refits a final model on the entire
training set with the winning combination. -/
theorem gridSearchCV_selects_best {D M : Type} (k : ℕ)
    (f : ℚ × ℕ → List D → M) (score : M → List D → ℚ)
    (fit : ℚ × ℕ → List D → Except GSError M)
    (hfit : ∀ c tr, fit c tr = Except.ok (f c tr))
    (alphas : List ℚ) (iters : List ℕ) (train : List D)
    (hne : paramCombos alphas iters ≠ []) :
    ∃ out : GSOut M,
      gridSearchCV k fit score alphas iters train = Except.ok out ∧
      out.results = (paramCombos alphas iters).map
        (fun c => (c, pureCvMean k f score train c)) ∧
      (∃ j : ℕ, (paramCombos alphas iters)[j]? = some out.best_params ∧
        out.best_score = pureCvMean k f score train out.best_params ∧
        (∀ c ∈ paramCombos alphas iters,
          pureCvMean k f score train c ≤ out.best_score) ∧
        (∀ (i : ℕ) (c : ℚ × ℕ), i < j → (paramCombos alphas iters)[i]? = some c →
          pureCvMean k f score train c < out.best_score)) ∧
      out.best_estimator = f out.best_params train := by
  have hres : mapExcept
      (fun c => (cvMean k fit score train c).map (fun s => (c, s)))
      (paramCombos alphas iters)
      = Except.ok ((paramCombos alphas iters).map
          (fun c => (c, pureCvMean k f score train c))) := by
    apply mapExcept_ok_of_forall
    intro c _
    rw [cvMean_ok k f fit score train c hfit]
    rfl
  have hscores : (((paramCombos alphas iters).map
        (fun c => (c, pureCvMean k f score train c))).map (fun p => p.2))
      = (paramCombos alphas iters).map (fun c => pureCvMean k f score train c) := by
    rw [List.map_map]
    rfl
  have hscne : (paramCombos alphas iters).map
      (fun c => pureCvMean k f score train c) ≠ [] := by
    simpa using hne
  obtain ⟨j, m, hb, hg, hmax, hfirst⟩ := bestIdxScore_spec _ hscne
  have hj : j < (paramCombos alphas iters).length := by
    by_contra hn
    rw [List.getElem?_eq_none (by simpa using Nat.le_of_not_lt hn)] at hg
    exact Option.noConfusion hg
  have hcj : (paramCombos alphas iters)[j]? = some ((paramCombos alphas iters)[j]) :=
    List.getElem?_eq_getElem hj
  have hm : m = pureCvMean k f score train ((paramCombos alphas iters)[j]) := by
    rw [List.getElem?_map, hcj] at hg
    simpa using hg.symm
  refine ⟨⟨(paramCombos alphas iters).map (fun c => (c, pureCvMean k f score train c)),
      (paramCombos alphas iters)[j], m, f ((paramCombos alphas iters)[j]) train⟩,
    ?_, rfl, ⟨j, hcj, hm, ?_, ?_⟩, rfl⟩
  · show gridSearchCV k fit score alphas iters train = _
    unfold gridSearchCV
    rw [hres]
    show (match bestIdxScore (((paramCombos alphas iters).map
        (fun c => (c, pureCvMean k f score train c))).map (fun p => p.2)) with
      | none => Except.error GSError.emptySpace
      | some (j, m) =>
        match (paramCombos alphas iters)[j]? with
        | none => Except.error GSError.emptySpace
        | some c => (fit c train).map
            (fun mdl => GSOut.mk ((paramCombos alphas iters).map
              (fun c => (c, pureCvMean k f score train c))) c m mdl)) = _
    rw [hscores, hb]
    show (match (paramCombos alphas iters)[j]? with
      | none => Except.error GSError.emptySpace
      | some c => Except.map
          (fun mdl => GSOut.mk ((paramCombos alphas iters).map
            (fun c => (c, pureCvMean k f score train c))) c m mdl)
          (fit c train)) = _
    rw [hcj]
    show Except.map
        (fun mdl => GSOut.mk ((paramCombos alphas iters).map
          (fun c => (c, pureCvMean k f score train c)))
          ((paramCombos alphas iters)[j]) m mdl)
        (fit ((paramCombos alphas iters)[j]) train) = _
    rw [hfit]
    rfl
  · intro c hc
    exact hmax (pureCvMean k f score train c) (List.mem_map_of_mem _ hc)
  · intro i c hi hgc
    exact hfirst i (pureCvMean k f score train c) hi
      (by rw [List.getElem?_map, hgc]; rfl)

theorem gridSearchCV_selects_best_witness :
    ∃ out : GSOut ℚ,
      gridSearchCV 2 egFit egScore [1] [5, 7] [10, 20, 30, 40] = Except.ok out ∧
      out.results = (paramCombos [1] [5, 7]).map
        (fun c => (c, pureCvMean 2 egF egScore [10, 20, 30, 40] c)) ∧
      (∃ j : ℕ, (paramCombos [1] [5, 7])[j]? = some out.best_params ∧
        out.best_score = pureCvMean 2 egF egScore [10, 20, 30, 40] out.best_params ∧
        (∀ c ∈ paramCombos [1] [5, 7],
          pureCvMean 2 egF egScore [10, 20, 30, 40] c ≤ out.best_score) ∧
        (∀ (i : ℕ) (c : ℚ × ℕ), i < j → (paramCombos [1] [5, 7])[i]? = some c →
          pureCvMean 2 egF egScore [10, 20, 30, 40] c < out.best_score)) ∧
      out.best_estimator = egF out.best_params [10, 20, 30, 40] :=
  gridSearchCV_selects_best 2 egF egScore egFit (fun _ _ => rfl) [1] [5, 7]
    [10, 20, 30, 40] (by decide)

/-- C7 counterexample: the notebook's grid search runs with
`error_score='raise'`, so a single combination's numeric-instability
failure aborts the entire search: with a grid of two combinations whose
first fails, the search returns the error — no results are reported for
the remaining combination and no best is selected. -/
theorem gridSearch_abort_counterexample :
    gridSearchCV 2 badFit egScore [1] [0, 10] [10, 20, 30, 40] =
      Except.error (GSError.numericInstability "diverged") := rfl

/-- C7 amended: when a combination's cross-validation fails, the failure
is not recorded against that combination or excluded from selection — it
propagates (`error_score='raise'`) and the whole search aborts with that
error, reporting nothing for the remaining combinations. -/
theorem gridSearchCV_raise_aborts {D M : Type} (k : ℕ)
    (fit : ℚ × ℕ → List D → Except GSError M) (score : M → List D → ℚ)
    (alphas : List ℚ) (iters : List ℕ) (train : List D)
    (j : ℕ) (c : ℚ × ℕ) (e : GSError)
    (hc : (paramCombos alphas iters)[j]? = some c)
    (he : cvMean k fit score train c = Except.error e)
    (hearlier : ∀ (i : ℕ) (c' : ℚ × ℕ), i < j →
      (paramCombos alphas iters)[i]? = some c' →
      ∃ s, cvMean k fit score train c' = Except.ok s) :
    gridSearchCV k fit score alphas iters train = Except.error e := by
  have herr : mapExcept
      (fun c' => (cvMean k fit score train c').map (fun s => (c', s)))
      (paramCombos alphas iters) = Except.error e := by
    apply mapExcept_error_at _ _ j c e hc
    · rw [he]
      rfl
    · intro i b hi hb
      obtain ⟨s, hs⟩ := hearlier i b hi hb
      exact ⟨(b, s), by rw [hs]; rfl⟩
  unfold gridSearchCV
  rw [herr]

theorem gridSearchCV_raise_aborts_witness :
    gridSearchCV 2 badFit egScore [2] [0, 5] [10, 20, 30, 40] =
      Except.error (GSError.numericInstability "diverged") :=
  gridSearchCV_raise_aborts 2 badFit egScore [2] [0, 5] [10, 20, 30, 40]
    0 (2, 0) (GSError.numericInstability "diverged") (by decide) rfl
    (fun i c' hi _ => absurd hi (Nat.not_lt_zero i))

/-- C9: sigmoid(0) equals one half; the sigmoid is strictly increasing;
and for every real input its value lies strictly inside (0, 1) — over the
reals the function is total at every input, however large. -/
theorem sigmoid_spec :
    sigmoid 0 = 1 / 2 ∧
      (∀ a b : ℝ, a < b → sigmoid a < sigmoid b) ∧
      (∀ z : ℝ, sigmoid z ∈ Set.Ioo (0 : ℝ) 1) := by
  refine ⟨?_, ?_, ?_⟩
  · unfold sigmoid
    norm_num [Real.exp_zero]
  · intro a b hab
    unfold sigmoid
    have hpos : 0 < 1 + Real.exp (-b) := by positivity
    apply one_div_lt_one_div_of_lt hpos
    have : Real.exp (-b) < Real.exp (-a) := Real.exp_lt_exp.mpr (by linarith)
    linarith
  · intro z
    unfold sigmoid
    constructor
    · positivity
    · rw [div_lt_one (by positivity)]
      have := Real.exp_pos (-z)
      linarith

theorem sigmoid_spec_witness :
    sigmoid 0 = 1 / 2 ∧ ((0 : ℝ) < 1 ∧ sigmoid 0 < sigmoid 1) ∧
      sigmoid 1 ∈ Set.Ioo (0 : ℝ) 1 :=
  ⟨sigmoid_spec.1, ⟨one_pos, sigmoid_spec.2.1 0 1 one_pos⟩, sigmoid_spec.2.2 1⟩

end LRT
